import Mathlib

/-!
Verification of the AI news aggregator's fetch/normalize/merge/sort pipeline.

The definitions below are a shallow embedding of the repository's route
handlers:

* `NewsAgg.GET` embeds the aggregator route handler
  (`app/api/reddit/route.ts`, OAuth aggregator variant): query-parameter
  resolution, per-category limit computation, fan-out fetch, merge of
  settled results, dedup by id, sort, truncation and the response envelope.
  The network fetch and the OAuth token acquisition are oracles passed as
  arguments (`fetch`, `tokenResult`): the handler's behaviour is a pure
  function of their outcomes.
* `NewsAgg.normalizePost` embeds the `normalizePost` helper of the OAuth
  variant, `NewsAgg.normalizePostPP` the one of the PullPush variant.
* `Proxy.proxyGET` embeds the single-subreddit OAuth proxy route
  (token cache with 60 s early-expiry margin, 401 cache invalidation,
  non-OK status propagation with a truncated diagnostic body).

JavaScript string operations used by the source (`split(',')`, `trim()`,
`slice`, `replace(/…/g, …)`, `startsWith`, the image-extension regex) are
re-implemented as structurally recursive functions on `List Char` so that
every definition evaluates inside the kernel.  Machine numbers are `Int`
(JS numbers on the integer-valued inputs the routes manipulate; an
unparseable `limit`, i.e. JS `NaN`, is outside the model).
-/

namespace NewsAgg

/-! ### JavaScript-like primitives -/

/-- JS `s.split(',')` on the character list: the comma separates groups,
an empty string yields one empty group. -/
def splitComma : List Char → List (List Char)
  | [] => [[]]
  | c :: cs =>
    if c = ',' then [] :: splitComma cs
    else
      match splitComma cs with
      | [] => [[c]]
      | h :: t => (c :: h) :: t

def jsSplitComma (s : String) : List String :=
  (splitComma s.data).map (fun cs => ⟨cs⟩)

/-- JS `s.trim()`: drop whitespace from both ends. -/
def trimChars (cs : List Char) : List Char :=
  ((cs.dropWhile Char.isWhitespace).reverse.dropWhile Char.isWhitespace).reverse

def jsTrim (s : String) : String := ⟨trimChars s.data⟩

/-- JS `s.startsWith(p)`. -/
def jsStartsWith (s p : String) : Bool := p.data.isPrefixOf s.data

/-- JS `s.replace(/&amp;/g, '&')`: leftmost-first, the replacement text is
not rescanned. -/
def replaceAmpChars : List Char → List Char
  | '&' :: 'a' :: 'm' :: 'p' :: ';' :: rest => '&' :: replaceAmpChars rest
  | c :: rest => c :: replaceAmpChars rest
  | [] => []

def jsReplaceAmp (s : String) : String := ⟨replaceAmpChars s.data⟩

/-- JS `s.replace(/\[removed\]/g, '')`. -/
def replaceRemovedChars : List Char → List Char
  | '[' :: 'r' :: 'e' :: 'm' :: 'o' :: 'v' :: 'e' :: 'd' :: ']' :: rest =>
      replaceRemovedChars rest
  | c :: rest => c :: replaceRemovedChars rest
  | [] => []

def jsReplaceRemoved (s : String) : String := ⟨replaceRemovedChars s.data⟩

/-- JS `s.slice(0, n)` for a nonnegative `n` (string truncation). -/
def jsTake (s : String) (n : Nat) : String := ⟨s.data.take n⟩

/-- JS `arr.slice(0, e)` with an integer end argument: a negative end
counts from the end of the array. -/
def jsSlice (l : List α) (e : Int) : List α :=
  if e < 0 then l.take ((l.length : Int) + e).toNat else l.take e.toNat

/-- JS `Math.ceil(a / b)` for integers `a` and positive `b`. -/
def jsCeilDiv (a b : Int) : Int := -(Int.fdiv (-a) b)

/-- JS `x || d` for a nullable string: `null` and `''` are falsy. -/
def jsOr (o : Option String) (d : String) : String :=
  match o with
  | none => d
  | some s => if s = "" then d else s

/-- JS `x || null` for a nullable string. -/
def jsOrNull (o : Option String) : Option String :=
  match o with
  | none => none
  | some s => if s = "" then none else some s

/-! ### Data model: the normalized `RedditPost` item -/

structure RedditPost where
  id : String
  title : String
  url : String
  permalink : String
  subreddit : String
  score : Int
  numComments : Int
  author : String
  thumbnail : Option String
  selftext : String
  createdAt : Int
  flair : Option String
  isImage : Bool
  preview : Option String
deriving DecidableEq

/-! ### normalizePost (OAuth aggregator variant) -/

/-- The fields of an upstream `RedditApiPost.data` record that
`normalizePost` reads.  `preview` stands for the optional-chained
`d.preview?.images?.[0]?.source?.url`. -/
structure RawPostData where
  id : String
  title : String
  url : String
  permalink : String
  subreddit : String
  score : Int
  num_comments : Int
  author : String
  thumbnail : String
  selftext : String
  created_utc : Int
  link_flair_text : Option String
  is_reddit_media_domain : Bool
  post_hint : Option String
  preview : Option String
deriving DecidableEq

def invalidThumbnails : List String := ["self", "default", "nsfw", "spoiler", "", "image"]

def imageExts : List String := ["jpg", "jpeg", "png", "gif", "webp"]

/-- JS regex `.` (no `s` flag): any character except line terminators. -/
def jsDot (c : Char) : Bool := !(c = '\n' || c = '\r' || c.toNat = 8232 || c.toNat = 8233)

/-- The optional `(\?.*)?$` tail of the image-extension regex. -/
def queryTail : List Char → Bool
  | [] => true
  | '?' :: t => t.all jsDot
  | _ => false

def suffixesOf : List Char → List (List Char)
  | [] => [[]]
  | c :: cs => (c :: cs) :: suffixesOf cs

/-- The test `/\.(jpg|jpeg|png|gif|webp)(\?.*)?$/i.test(url)`. -/
def imageUrlTest (url : String) : Bool :=
  let cs := url.data.map Char.toLower
  (suffixesOf cs).any (fun s =>
    imageExts.any (fun ext =>
      ("." ++ ext).data.isPrefixOf s && queryTail (s.drop ("." ++ ext).data.length)))

/-- `normalizePost` of the OAuth aggregator variant (route.ts lines 95-132). -/
def normalizePost (d : RawPostData) : RedditPost :=
  let previewUrl : Option String := d.preview.map jsReplaceAmp
  let thumbnail : Option String :=
    if d.thumbnail ≠ "" ∧ d.thumbnail ∉ invalidThumbnails ∧ jsStartsWith d.thumbnail "http"
    then some d.thumbnail else none
  let isImage : Bool :=
    (d.post_hint == some "image") || d.is_reddit_media_domain || imageUrlTest d.url
  { id := d.id
    title := d.title
    url := d.url
    permalink := "https://www.reddit.com" ++ d.permalink
    subreddit := d.subreddit
    score := d.score
    numComments := d.num_comments
    author := d.author
    thumbnail := thumbnail
    selftext := if d.selftext ≠ "" then jsTake d.selftext 200 else ""
    createdAt := d.created_utc
    flair := jsOrNull d.link_flair_text
    isImage := isImage
    preview := previewUrl }

/-! ### normalizePost (PullPush variant) -/

/-- The fields of an upstream `PullPushSubmission` record that the PullPush
variant's `normalizePost` reads (optional fields are `Option`). -/
structure RawSubmission where
  id : String
  title : String
  url : String
  permalink : String
  subreddit : String
  score : Option Int
  num_comments : Option Int
  author : Option String
  thumbnail : Option String
  selftext : Option String
  created_utc : Int
  link_flair_text : Option String
  is_reddit_media_domain : Option Bool
  post_hint : Option String
  preview : Option String
deriving DecidableEq

/-- `normalizePost` of the PullPush variant (route.ts lines 281-316). -/
def normalizePostPP (raw : RawSubmission) : RedditPost :=
  let previewUrl : Option String := raw.preview.map jsReplaceAmp
  let thumbVal : String := raw.thumbnail.getD ""
  let thumbnail : Option String :=
    if thumbVal ≠ "" ∧ thumbVal ∉ invalidThumbnails ∧ jsStartsWith thumbVal "http"
    then some thumbVal else none
  let isImage : Bool :=
    (raw.post_hint == some "image") || raw.is_reddit_media_domain.getD false
      || imageUrlTest raw.url
  { id := raw.id
    title := raw.title
    url := raw.url
    permalink := "https://www.reddit.com" ++ raw.permalink
    subreddit := raw.subreddit
    score := raw.score.getD 0
    numComments := raw.num_comments.getD 0
    author := raw.author.getD ""
    thumbnail := thumbnail
    selftext :=
      match raw.selftext with
      | none => ""
      | some s => if s = "" then "" else jsTake (jsTrim (jsReplaceRemoved s)) 200
    createdAt := raw.created_utc
    flair := raw.link_flair_text
    isImage := isImage
    preview := previewUrl }

/-! ### The aggregator route handler -/

def SUBREDDITS : List String :=
  ["artificial", "ChatGPT", "LocalLLaMA", "singularity", "OpenAI"]

def validSorts : List String := ["hot", "new", "top"]

/-- The aggregator's query parameters.  `limitParam` is the `parseInt`
value of the `limit` query string when the parameter is present and
integer-valued; `none` means absent or empty (the code then parses the
default `'50'`). -/
structure AggregateRequest where
  subredditParam : Option String
  sortParam : Option String
  limitParam : Option Int
deriving DecidableEq

def subredditParamVal (req : AggregateRequest) : String := jsOr req.subredditParam "all"

def sortVal (req : AggregateRequest) : String := jsOr req.sortParam "hot"

/-- `Math.min(parseInt(searchParams.get('limit') || '50', 10), 100)`. -/
def effLimit (req : AggregateRequest) : Int := min (req.limitParam.getD 50) 100

def safeSort (req : AggregateRequest) : String :=
  if sortVal req ∈ validSorts then sortVal req else "hot"

/-- Category-filter resolution: `'all'` expands to the fixed set, an
explicit value is split on commas, trimmed and filtered to recognized
subreddits. -/
def resolveTargets (p : String) : List String :=
  if p = "all" then SUBREDDITS
  else ((jsSplitComma p).map jsTrim).filter (fun s => decide (s ∈ SUBREDDITS))

def targetSubreddits (req : AggregateRequest) : List String :=
  resolveTargets (subredditParamVal req)

def perSubredditLimit (req : AggregateRequest) : Int :=
  if subredditParamVal req = "all" then
    jsCeilDiv (effLimit req) ((targetSubreddits req).length)
  else effLimit req

/-- The outcome of one `fetchSubreddit(sub, sort, limit, token)` call:
its argument tuple determines the settled value of the task. -/
abbrev FetchFun := String → String → Int → String → Except String (List RedditPost)

/-- The `posts` accumulation of the settle loop: fulfilled results are
concatenated in order. -/
def mergedPosts : List (Except String (List RedditPost)) → List RedditPost
  | [] => []
  | Except.ok ps :: rest => ps ++ mergedPosts rest
  | Except.error _ :: rest => mergedPosts rest

/-- The `errors` accumulation of the settle loop: one message per rejected
result, in order. -/
def fetchErrors : List (Except String (List RedditPost)) → List String
  | [] => []
  | Except.ok _ :: rest => fetchErrors rest
  | Except.error e :: rest => e :: fetchErrors rest

/-- Dedup-by-id filter with its `seen` set. -/
def dedupeGo (seen : List String) : List RedditPost → List RedditPost
  | [] => []
  | p :: rest =>
    if p.id ∈ seen then dedupeGo seen rest
    else p :: dedupeGo (p.id :: seen) rest

def dedupeById (l : List RedditPost) : List RedditPost := dedupeGo [] l

/-- Descending creation time (the comparator `(a, b) => b.createdAt - a.createdAt`). -/
def newLe (a b : RedditPost) : Prop := b.createdAt ≤ a.createdAt

/-- Descending score (the comparator `(a, b) => b.score - a.score`). -/
def scoreLe (a b : RedditPost) : Prop := b.score ≤ a.score

instance : DecidableRel newLe := fun a b => (inferInstance : Decidable (b.createdAt ≤ a.createdAt))

instance : DecidableRel scoreLe := fun a b => (inferInstance : Decidable (b.score ≤ a.score))

instance : IsTotal RedditPost newLe := ⟨fun a b => le_total b.createdAt a.createdAt⟩

instance : IsTrans RedditPost newLe := ⟨fun _ _ _ hab hbc => le_trans hbc hab⟩

instance : IsTotal RedditPost scoreLe := ⟨fun a b => le_total b.score a.score⟩

instance : IsTrans RedditPost scoreLe := ⟨fun _ _ _ hab hbc => le_trans hbc hab⟩

/-- The in-place `dedupedPosts.sort(...)`, modelled as the (unique) stable
sort by the selected comparator. -/
def sortPosts (s : String) (l : List RedditPost) : List RedditPost :=
  if s = "new" then List.insertionSort newLe l else List.insertionSort scoreLe l

structure Meta where
  subreddits : List String
  sort : String
  count : Nat
deriving DecidableEq

/-- The JSON envelope produced by `NextResponse.json` (success responses
have status 200; error responses carry `{ error, posts: [] }`). -/
structure GetResponse where
  status : Nat
  posts : List RedditPost
  error : Option String
  errors : Option (List String)
  meta : Option Meta
deriving DecidableEq

/-- The settled results of `Promise.allSettled(targetSubreddits.map(...))`,
in the input order of the target list. -/
def fetchResults (req : AggregateRequest) (token : String) (fetch : FetchFun) :
    List (Except String (List RedditPost)) :=
  (targetSubreddits req).map
    (fun sub => fetch sub (safeSort req) (perSubredditLimit req) token)

/-- The aggregator `GET` handler.  `tokenResult` is the outcome of
`getAccessToken()` (an `Except.error` models a thrown configuration or
token-exchange failure), `fetch` the outcome of each `fetchSubreddit`. -/
def GET (req : AggregateRequest) (tokenResult : Except String String)
    (fetch : FetchFun) : GetResponse :=
  if subredditParamVal req ≠ "all" ∧ (targetSubreddits req).length = 0 then
    { status := 400, posts := [], error := some "Invalid subreddit(s) specified",
      errors := none, meta := none }
  else
    match tokenResult with
    | Except.error msg =>
      { status := 500, posts := [], error := some msg, errors := none, meta := none }
    | Except.ok token =>
      let results := fetchResults req token fetch
      let dedupedPosts := dedupeById (mergedPosts results)
      let sorted := sortPosts (safeSort req) dedupedPosts
      { status := 200
        posts := jsSlice sorted (effLimit req)
        error := none
        errors := if (fetchErrors results).length > 0 then some (fetchErrors results) else none
        meta := some { subreddits := targetSubreddits req, sort := safeSort req,
                       count := sorted.length } }

end NewsAgg

namespace NewsAgg

/-! ### Concurrent settlement model (for the determinism analysis)

`Promise.allSettled` places each task's settled value at the task's input
index, whatever order the tasks complete in.  `runSchedule` replays the
completion log `sched` (a permutation of the task indices) against the
slot array; `GETsched` is the handler with the settle step made explicit. -/

def runSchedule (outcomes : List α) (sched : List Nat) : List (Option α) :=
  sched.foldl
    (fun slots i =>
      match outcomes[i]? with
      | some v => slots.set i (some v)
      | none => slots)
    (List.replicate outcomes.length none)

/-- The aggregator handler with the `allSettled` result array assembled
from an explicit task-completion order `sched`. -/
def GETsched (req : AggregateRequest) (tokenResult : Except String String)
    (fetch : FetchFun) (sched : List Nat) : GetResponse :=
  if subredditParamVal req ≠ "all" ∧ (targetSubreddits req).length = 0 then
    { status := 400, posts := [], error := some "Invalid subreddit(s) specified",
      errors := none, meta := none }
  else
    match tokenResult with
    | Except.error msg =>
      { status := 500, posts := [], error := some msg, errors := none, meta := none }
    | Except.ok token =>
      let results := (runSchedule (fetchResults req token fetch) sched).reduceOption
      let dedupedPosts := dedupeById (mergedPosts results)
      let sorted := sortPosts (safeSort req) dedupedPosts
      { status := 200
        posts := jsSlice sorted (effLimit req)
        error := none
        errors := if (fetchErrors results).length > 0 then some (fetchErrors results) else none
        meta := some { subreddits := targetSubreddits req, sort := safeSort req,
                       count := sorted.length } }

end NewsAgg

namespace Proxy

/-! ### The single-subreddit OAuth proxy route

Embedding of the proxy variant: in-process token cache with a 60 s
early-expiry margin, client-credentials exchange, non-OK upstream status
propagated with a truncated diagnostic body, and 401-triggered cache
invalidation. -/

structure TokenCache where
  token : String
  expiresAt : Int
deriving DecidableEq

/-- Outcome of the `POST /api/v1/access_token` exchange. -/
inductive TokenUpstream where
  | ok (access_token : String) (expires_in : Int)
  | err (status : Nat) (body : String)
deriving DecidableEq

/-- The client-credentials exchange performed when no valid cached token
exists (`getAccessToken` past the cache check). -/
def requestToken (cache : Option TokenCache) (now : Int)
    (creds : Option (String × String)) (upstream : TokenUpstream) :
    Option TokenCache × Except String String :=
  match creds with
  | none =>
    (cache, Except.error ("Reddit OAuth credentials not configured. " ++
      "Set REDDIT_CLIENT_ID and REDDIT_CLIENT_SECRET in .env.local. " ++
      "Get free credentials at https://www.reddit.com/prefs/apps"))
  | some _ =>
    match upstream with
    | TokenUpstream.err status body =>
      (cache, Except.error ("Reddit token request failed: " ++ toString status ++
        " — " ++ NewsAgg.jsTake body 200))
    | TokenUpstream.ok tok expiresIn =>
      (some { token := tok, expiresAt := now + expiresIn * 1000 }, Except.ok tok)

/-- `getAccessToken()`: serve the cached token while it is more than 60 s
from expiry, otherwise re-authenticate.  Returns the new cache state and
the token (or the thrown error). -/
def getAccessToken (cache : Option TokenCache) (now : Int)
    (creds : Option (String × String)) (upstream : TokenUpstream) :
    Option TokenCache × Except String String :=
  match cache with
  | some tc =>
    if tc.expiresAt - now > 60000 then (some tc, Except.ok tc.token)
    else requestToken (some tc) now creds upstream
  | none => requestToken none now creds upstream

structure ProxyRequest where
  subreddit : Option String
  sortParam : Option String
  limitParam : Option String
  t : Option String
deriving DecidableEq

structure ProxyResponse where
  status : Nat
  error : Option String
  detail : Option String
  body : Option String
deriving DecidableEq

/-- The proxy `GET` handler.  `dataStatus`/`dataBody` are the upstream
listing response's status and body text; `res.ok` is status 200-299. -/
def proxyGET (cache : Option TokenCache) (req : ProxyRequest) (now : Int)
    (creds : Option (String × String)) (tokenUp : TokenUpstream)
    (dataStatus : Nat) (dataBody : String) :
    Option TokenCache × ProxyResponse :=
  match req.subreddit with
  | none => (cache, { status := 400, error := some "Missing subreddit parameter",
                      detail := none, body := none })
  | some sub =>
    match getAccessToken cache now creds tokenUp with
    | (cacheA, Except.error msg) =>
      (cacheA, { status := 500, error := some msg, detail := none, body := none })
    | (cacheA, Except.ok _token) =>
      if 200 ≤ dataStatus ∧ dataStatus ≤ 299 then
        (cacheA, { status := 200, error := none, detail := none, body := some dataBody })
      else
        ((if dataStatus = 401 then none else cacheA),
         { status := dataStatus
           error := some ("Reddit returned " ++ toString dataStatus ++ " for r/" ++ sub)
           detail := some (NewsAgg.jsTake dataBody 200)
           body := none })

end Proxy

namespace NewsAgg

/-! ### Helper lemmas -/

/-- The error component of a settled fetch result. -/
def errOf : Except String (List RedditPost) → Option String
  | Except.error e => some e
  | Except.ok _ => none

theorem mergedPosts_map (ts : List String)
    (f : String → Except String (List RedditPost)) :
    mergedPosts (ts.map f) = (ts.filterMap (fun t => (f t).toOption)).flatten := by
  induction ts with
  | nil => rfl
  | cons t ts ih =>
    simp only [List.map_cons, List.filterMap_cons]
    cases h : f t with
    | ok ps => simp [mergedPosts, Except.toOption, ih]
    | error e => simp [mergedPosts, Except.toOption, ih]

theorem fetchErrors_map (ts : List String)
    (f : String → Except String (List RedditPost)) :
    fetchErrors (ts.map f) = ts.filterMap (fun t => errOf (f t)) := by
  induction ts with
  | nil => rfl
  | cons t ts ih =>
    simp only [List.map_cons, List.filterMap_cons]
    cases h : f t with
    | ok ps => simp [fetchErrors, errOf, ih]
    | error e => simp [fetchErrors, errOf, ih]

theorem mergedPosts_of_all_error (results : List (Except String (List RedditPost)))
    (h : ∀ r ∈ results, ∃ e, r = Except.error e) : mergedPosts results = [] := by
  induction results with
  | nil => rfl
  | cons r rest ih =>
    obtain ⟨e, he⟩ := h r (List.mem_cons_self r rest)
    subst he
    exact ih (fun r hr => h r (List.mem_cons_of_mem _ hr))

theorem fetchErrors_length_of_all_error (results : List (Except String (List RedditPost)))
    (h : ∀ r ∈ results, ∃ e, r = Except.error e) :
    (fetchErrors results).length = results.length := by
  induction results with
  | nil => rfl
  | cons r rest ih =>
    obtain ⟨e, he⟩ := h r (List.mem_cons_self r rest)
    subst he
    simpa [fetchErrors] using ih (fun r hr => h r (List.mem_cons_of_mem _ hr))

theorem length_filterMap_eq_length_filter (f : α → Option β) (l : List α) :
    (l.filterMap f).length = (l.filter (fun a => (f a).isSome)).length := by
  induction l with
  | nil => rfl
  | cons a l ih =>
    cases h : f a with
    | none => simp [List.filterMap_cons, List.filter_cons, h, ih]
    | some b => simp [List.filterMap_cons, List.filter_cons, h, ih]

theorem sortPosts_perm (s : String) (l : List RedditPost) :
    (sortPosts s l).Perm l := by
  unfold sortPosts
  split
  · exact List.perm_insertionSort newLe l
  · exact List.perm_insertionSort scoreLe l

theorem sortPosts_length (s : String) (l : List RedditPost) :
    (sortPosts s l).length = l.length :=
  (sortPosts_perm s l).length_eq

theorem sortPosts_pairwise_new (l : List RedditPost) :
    (sortPosts "new" l).Pairwise newLe := by
  unfold sortPosts
  simp only [if_pos rfl]
  exact List.sorted_insertionSort newLe l

theorem sortPosts_pairwise_score (s : String) (hs : s ≠ "new") (l : List RedditPost) :
    (sortPosts s l).Pairwise scoreLe := by
  unfold sortPosts
  simp only [if_neg hs]
  exact List.sorted_insertionSort scoreLe l

theorem jsSlice_eq_take (l : List α) (e : Int) : ∃ k, jsSlice l e = l.take k := by
  unfold jsSlice
  split
  · exact ⟨((l.length : Int) + e).toNat, rfl⟩
  · exact ⟨e.toNat, rfl⟩

theorem jsSlice_length_le (l : List α) (e : Int) : (jsSlice l e).length ≤ l.length := by
  obtain ⟨k, hk⟩ := jsSlice_eq_take l e
  rw [hk]
  exact List.length_take_le' k l

theorem jsSlice_length_le_of_nonneg (l : List α) (e : Int) (he : 0 ≤ e) :
    ((jsSlice l e).length : Int) ≤ e := by
  unfold jsSlice
  rw [if_neg (by omega)]
  calc ((l.take e.toNat).length : Int) ≤ (e.toNat : Int) := by
        exact_mod_cast l.length_take_le e.toNat
    _ = e := Int.toNat_of_nonneg he

theorem mem_of_mem_jsSlice {l : List α} {e : Int} {a : α} (h : a ∈ jsSlice l e) :
    a ∈ l := by
  obtain ⟨k, hk⟩ := jsSlice_eq_take l e
  rw [hk] at h
  exact List.mem_of_mem_take h

theorem jsSlice_sublist (l : List α) (e : Int) : List.Sublist (jsSlice l e) l := by
  obtain ⟨k, hk⟩ := jsSlice_eq_take l e
  rw [hk]
  exact List.take_sublist k l

theorem jsCeilDiv_le (a b : Int) (hb : 0 < b) : a ≤ b * jsCeilDiv a b := by
  unfold jsCeilDiv
  rw [Int.fdiv_eq_ediv _ (le_of_lt hb)]
  have h := Int.ediv_mul_le (-a) (ne_of_gt hb)
  nlinarith [h]

theorem jsCeilDiv_lt (a b : Int) (hb : 0 < b) : b * (jsCeilDiv a b - 1) < a := by
  unfold jsCeilDiv
  rw [Int.fdiv_eq_ediv _ (le_of_lt hb)]
  have h := Int.lt_ediv_add_one_mul_self (-a) hb
  nlinarith [h]

end NewsAgg

namespace NewsAgg

/-! ### Deduplication lemmas -/

/-- `p` is the first item of `l` carrying its identifier. -/
def FirstOcc (l : List RedditPost) (p : RedditPost) : Prop :=
  ∃ pre post, l = pre ++ p :: post ∧ ∀ q ∈ pre, q.id ≠ p.id

theorem countP_dedupeGo_of_mem (x : String) (l : List RedditPost) :
    ∀ seen : List String, x ∈ seen →
      (dedupeGo seen l).countP (fun p => p.id == x) = 0 := by
  induction l with
  | nil => intro seen _; rfl
  | cons p rest ih =>
    intro seen hx
    unfold dedupeGo
    by_cases hp : p.id ∈ seen
    · rw [if_pos hp]
      exact ih seen hx
    · rw [if_neg hp]
      have hpx : (p.id == x) = false := by
        simp only [beq_eq_false_iff_ne, ne_eq]
        intro hc
        exact hp (hc ▸ hx)
      simp only [List.countP_cons, hpx, if_false, add_zero]
      exact ih (p.id :: seen) (List.mem_cons_of_mem _ hx)

theorem countP_dedupeGo_le_one (x : String) (l : List RedditPost) :
    ∀ seen : List String, (dedupeGo seen l).countP (fun p => p.id == x) ≤ 1 := by
  induction l with
  | nil => intro seen; simp [dedupeGo]
  | cons p rest ih =>
    intro seen
    unfold dedupeGo
    by_cases hp : p.id ∈ seen
    · rw [if_pos hp]; exact ih seen
    · rw [if_neg hp]
      by_cases hpx : (p.id == x) = true
      · have hx : x ∈ p.id :: seen := by
          have : p.id = x := by simpa using hpx
          simp [this]
        simp only [List.countP_cons, hpx, if_true]
        rw [countP_dedupeGo_of_mem x rest (p.id :: seen) hx]
      · simp only [List.countP_cons, Bool.not_eq_true] at hpx
        simp only [List.countP_cons, hpx, if_false, add_zero]
        exact ih (p.id :: seen)

theorem countP_dedupeGo_eq_one (x : String) (l : List RedditPost) :
    ∀ seen : List String, x ∉ seen →
      1 ≤ l.countP (fun p => p.id == x) →
      (dedupeGo seen l).countP (fun p => p.id == x) = 1 := by
  induction l with
  | nil => intro seen _ h; simp at h
  | cons p rest ih =>
    intro seen hx h
    unfold dedupeGo
    by_cases hp : p.id ∈ seen
    · have hpx : (p.id == x) = false := by
        simp only [beq_eq_false_iff_ne, ne_eq]
        intro hc
        exact hx (hc ▸ hp)
      rw [if_pos hp]
      refine ih seen hx ?_
      simpa [List.countP_cons, hpx] using h
    · rw [if_neg hp]
      by_cases hpx : (p.id == x) = true
      · have heq : p.id = x := by simpa using hpx
        have hxm : x ∈ p.id :: seen := by simp [heq]
        simp only [List.countP_cons, hpx, if_true]
        rw [countP_dedupeGo_of_mem x rest (p.id :: seen) hxm]
      · simp only [Bool.not_eq_true] at hpx
        simp only [List.countP_cons, hpx, if_false, add_zero]
        refine ih (p.id :: seen) ?_ ?_
        · intro hc
          rcases List.mem_cons.mp hc with hc1 | hc2
          · subst hc1
            simp at hpx
          · exact hx hc2
        · simpa [List.countP_cons, hpx] using h

theorem mem_dedupeGo_iff (l : List RedditPost) (p : RedditPost) :
    ∀ seen : List String, p ∈ dedupeGo seen l ↔ p.id ∉ seen ∧ FirstOcc l p := by
  induction l with
  | nil =>
    intro seen
    simp only [dedupeGo, List.not_mem_nil, false_iff, not_and]
    intro _
    rintro ⟨pre, post, hdec, _⟩
    exact (List.append_ne_nil_of_right_ne_nil pre (List.cons_ne_nil p post)) hdec.symm
  | cons q rest ih =>
    intro seen
    unfold dedupeGo
    by_cases hq : q.id ∈ seen
    · rw [if_pos hq, ih seen]
      constructor
      · rintro ⟨hps, pre, post, hdec, hpre⟩
        refine ⟨hps, q :: pre, post, by simp [hdec], ?_⟩
        intro r hr
        rcases List.mem_cons.mp hr with h | h
        · subst h
          intro hcon
          exact hps (hcon ▸ hq)
        · exact hpre r h
      · rintro ⟨hps, pre, post, hdec, hpre⟩
        refine ⟨hps, ?_⟩
        cases pre with
        | nil =>
          simp only [List.nil_append, List.cons.injEq] at hdec
          exact absurd (hdec.1 ▸ hq) (by simpa [hdec.1] using hps)
        | cons r pre' =>
          simp only [List.cons_append, List.cons.injEq] at hdec
          refine ⟨pre', post, hdec.2, ?_⟩
          intro s hs
          exact hpre s (hdec.1 ▸ List.mem_cons_of_mem r hs)
    · rw [if_neg hq]
      constructor
      · intro hmem
        rcases List.mem_cons.mp hmem with h | h
        · subst h
          exact ⟨hq, [], rest, rfl, by simp⟩
        · rw [ih (q.id :: seen)] at h
          obtain ⟨hps, pre, post, hdec, hpre⟩ := h
          have hpseen : p.id ∉ seen := fun hc => hps (List.mem_cons_of_mem _ hc)
          have hpq : p.id ≠ q.id := fun hc => hps (by simp [hc])
          refine ⟨hpseen, q :: pre, post, by simp [hdec], ?_⟩
          intro r hr
          rcases List.mem_cons.mp hr with h1 | h1
          · subst h1
            exact fun hc => hpq hc.symm
          · exact hpre r h1
      · rintro ⟨hps, pre, post, hdec, hpre⟩
        cases pre with
        | nil =>
          simp only [List.nil_append, List.cons.injEq] at hdec
          exact List.mem_cons.mpr (Or.inl hdec.1.symm)
        | cons r pre' =>
          simp only [List.cons_append, List.cons.injEq] at hdec
          refine List.mem_cons.mpr (Or.inr ?_)
          rw [ih (q.id :: seen)]
          have hrq : r.id ≠ p.id := hpre r (List.mem_cons_self r pre')
          refine ⟨?_, pre', post, hdec.2, ?_⟩
          · intro hc
            rcases List.mem_cons.mp hc with h1 | h1
            · exact hrq (by rw [← hdec.1]; exact h1.symm)
            · exact hps h1
          · intro s hs
            exact hpre s (List.mem_cons_of_mem r hs)

theorem mem_dedupeById_iff (l : List RedditPost) (p : RedditPost) :
    p ∈ dedupeById l ↔ FirstOcc l p := by
  rw [dedupeById, mem_dedupeGo_iff l p []]
  simp

theorem dedupeById_subset {l : List RedditPost} {p : RedditPost}
    (h : p ∈ dedupeById l) : p ∈ l := by
  obtain ⟨pre, post, hdec, _⟩ := (mem_dedupeById_iff l p).mp h
  rw [hdec]
  exact List.mem_append.mpr (Or.inr (List.mem_cons_self p post))

theorem countP_dedupeById_le_one (x : String) (l : List RedditPost) :
    (dedupeById l).countP (fun p => p.id == x) ≤ 1 :=
  countP_dedupeGo_le_one x l []

theorem countP_dedupeById_eq_one (x : String) (l : List RedditPost)
    (h : 1 ≤ l.countP (fun p => p.id == x)) :
    (dedupeById l).countP (fun p => p.id == x) = 1 :=
  countP_dedupeGo_eq_one x l [] (List.not_mem_nil x) h

end NewsAgg

namespace NewsAgg

/-! ### Settlement-order lemmas -/

/-- One completion event: task `i` settles and its value is stored at
input index `i` of the result array. -/
def settleStep (outcomes : List α) (slots : List (Option α)) (i : Nat) :
    List (Option α) :=
  match outcomes[i]? with
  | some v => slots.set i (some v)
  | none => slots

theorem runSchedule_eq_foldl (outcomes : List α) (sched : List Nat) :
    runSchedule outcomes sched =
      sched.foldl (settleStep outcomes) (List.replicate outcomes.length none) := rfl

theorem settleStep_length (outcomes : List α) (slots : List (Option α)) (i : Nat) :
    (settleStep outcomes slots i).length = slots.length := by
  unfold settleStep
  cases outcomes[i]? with
  | some v => exact List.length_set slots i (some v)
  | none => rfl

theorem settle_foldl_spec (outcomes : List α) :
    ∀ (sched : List Nat) (slots : List (Option α)),
      slots.length = outcomes.length →
      (sched.foldl (settleStep outcomes) slots).length = outcomes.length ∧
      ∀ j : Nat,
        (sched.foldl (settleStep outcomes) slots)[j]? =
          if j ∈ sched ∧ j < outcomes.length then (outcomes[j]?).map some
          else slots[j]? := by
  intro sched
  induction sched with
  | nil =>
    intro slots hlen
    refine ⟨hlen, ?_⟩
    intro j
    rw [if_neg (by simp)]
    rfl
  | cons i rest ih =>
    intro slots hlen
    have hstep : (settleStep outcomes slots i).length = outcomes.length := by
      rw [settleStep_length]; exact hlen
    obtain ⟨ihlen, ihget⟩ := ih (settleStep outcomes slots i) hstep
    refine ⟨ihlen, ?_⟩
    intro j
    rw [List.foldl_cons, ihget j]
    by_cases hjr : j ∈ rest ∧ j < outcomes.length
    · rw [if_pos hjr, if_pos ⟨List.mem_cons_of_mem i hjr.1, hjr.2⟩]
    · rw [if_neg hjr]
      by_cases hij : j = i
      · subst hij
        by_cases hn : j < outcomes.length
        · have hsome : outcomes[j]? = some outcomes[j] := List.getElem?_eq_getElem hn
          have : settleStep outcomes slots j = slots.set j (some outcomes[j]) := by
            unfold settleStep
            rw [hsome]
          rw [this, List.getElem?_set_self (by rw [hlen]; exact hn),
            if_pos ⟨List.mem_cons_self j rest, hn⟩, hsome]
          rfl
        · have hnone : outcomes[j]? = none :=
            List.getElem?_eq_none (by omega)
          have : settleStep outcomes slots j = slots := by
            unfold settleStep
            rw [hnone]
          rw [this, if_neg (by tauto)]
      · have : (settleStep outcomes slots i)[j]? = slots[j]? := by
          cases houtcome : outcomes[i]? with
          | some v =>
            simp only [settleStep, houtcome]
            exact List.getElem?_set_ne (Ne.symm hij)
          | none => simp only [settleStep, houtcome]
        rw [this, if_neg ?_]
        rintro ⟨hmem, hjn⟩
        rcases List.mem_cons.mp hmem with h1 | h1
        · exact hij h1
        · exact hjr ⟨h1, hjn⟩

/-- `allSettled` is completion-order independent: any permutation of the
task indices reproduces the input-order result array. -/
theorem runSchedule_of_perm (outcomes : List α) (sched : List Nat)
    (h : sched.Perm (List.range outcomes.length)) :
    runSchedule outcomes sched = outcomes.map some := by
  rw [runSchedule_eq_foldl]
  obtain ⟨_, hget⟩ := settle_foldl_spec outcomes sched
    (List.replicate outcomes.length none) (List.length_replicate _ _)
  apply List.ext_getElem?
  intro j
  rw [hget j]
  have hmem : j ∈ sched ↔ j < outcomes.length := by
    rw [h.mem_iff, List.mem_range]
  by_cases hj : j < outcomes.length
  · rw [if_pos ⟨hmem.mpr hj, hj⟩, List.getElem?_map]
  · rw [if_neg (by tauto), List.getElem?_eq_none (by simpa using Nat.le_of_not_lt hj),
      List.getElem?_eq_none (by simpa using Nat.le_of_not_lt hj)]

theorem reduceOption_map_some (l : List α) : (l.map some).reduceOption = l := by
  induction l with
  | nil => rfl
  | cons a l ih => simpa [List.reduceOption_cons_of_some] using ih

end NewsAgg

namespace NewsAgg

/-! ### Handler shape lemmas -/

instance : DecidableEq (Except String (List RedditPost)) := fun a b =>
  match a, b with
  | Except.ok x, Except.ok y =>
    if h : x = y then isTrue (by rw [h]) else isFalse (by intro hc; cases hc; exact h rfl)
  | Except.error x, Except.error y =>
    if h : x = y then isTrue (by rw [h]) else isFalse (by intro hc; cases hc; exact h rfl)
  | Except.ok _, Except.error _ => isFalse (by intro hc; cases hc)
  | Except.error _, Except.ok _ => isFalse (by intro hc; cases hc)

theorem fetchResults_eq (req : AggregateRequest) (token : String) (fetch : FetchFun) :
    fetchResults req token fetch =
      (targetSubreddits req).map
        (fun sub => fetch sub (safeSort req) (perSubredditLimit req) token) := rfl

theorem sortPosts_nil (s : String) : sortPosts s [] = [] := by
  unfold sortPosts
  split <;> rfl

theorem jsSlice_nil (e : Int) : jsSlice ([] : List α) e = [] := by
  unfold jsSlice
  split <;> simp

theorem GET_ok_unfold (req : AggregateRequest) (token : String) (fetch : FetchFun)
    (hval : ¬(subredditParamVal req ≠ "all" ∧ (targetSubreddits req).length = 0)) :
    GET req (Except.ok token) fetch =
      { status := 200
        posts := jsSlice (sortPosts (safeSort req)
          (dedupeById (mergedPosts (fetchResults req token fetch)))) (effLimit req)
        error := none
        errors := if (fetchErrors (fetchResults req token fetch)).length > 0
                  then some (fetchErrors (fetchResults req token fetch)) else none
        meta := some { subreddits := targetSubreddits req, sort := safeSort req,
                       count := (sortPosts (safeSort req)
                         (dedupeById (mergedPosts (fetchResults req token fetch)))).length } } := by
  unfold GET
  rw [if_neg hval]

theorem GET_posts_shape (req : AggregateRequest) (tok : Except String String)
    (fetch : FetchFun) :
    (GET req tok fetch).posts = [] ∨
    ∃ token, tok = Except.ok token ∧
      (GET req tok fetch).posts =
        jsSlice (sortPosts (safeSort req)
          (dedupeById (mergedPosts (fetchResults req token fetch)))) (effLimit req) := by
  by_cases hval : subredditParamVal req ≠ "all" ∧ (targetSubreddits req).length = 0
  · left
    unfold GET
    rw [if_pos hval]
  · cases tok with
    | error msg =>
      left
      unfold GET
      rw [if_neg hval]
    | ok token =>
      right
      exact ⟨token, rfl, by rw [GET_ok_unfold req token fetch hval]⟩

theorem GET_meta_inv (req : AggregateRequest) (tok : Except String String)
    (fetch : FetchFun) (m : Meta) (hm : (GET req tok fetch).meta = some m) :
    ∃ token, tok = Except.ok token ∧
      ¬(subredditParamVal req ≠ "all" ∧ (targetSubreddits req).length = 0) ∧
      m = { subreddits := targetSubreddits req, sort := safeSort req,
            count := (sortPosts (safeSort req)
              (dedupeById (mergedPosts (fetchResults req token fetch)))).length } := by
  by_cases hval : subredditParamVal req ≠ "all" ∧ (targetSubreddits req).length = 0
  · unfold GET at hm
    rw [if_pos hval] at hm
    simp at hm
  · cases tok with
    | error msg =>
      unfold GET at hm
      rw [if_neg hval] at hm
      simp at hm
    | ok token =>
      rw [GET_ok_unfold req token fetch hval] at hm
      simp only [Option.some.injEq] at hm
      exact ⟨token, rfl, hval, hm.symm⟩

/-! ### Claim C1 -/

/-- One valid single-category request, with every fetch failing. -/
def reqArtificial : AggregateRequest :=
  { subredditParam := some "artificial", sortParam := none, limitParam := none }

def failFetch : FetchFun := fun _ _ _ _ => Except.error "boom"

/-- C1 counterexample: with every target category's fetch failing (zero
items merged, one error collected), the handler still returns the 200
success envelope — empty `posts`, the error strings in `errors` — and not
a 500 failure with concatenated messages, contradicting the claim. -/
theorem totalFailure_counterexample :
    GET reqArtificial (Except.ok "tkn") failFetch =
      { status := 200, posts := [], error := none, errors := some ["boom"],
        meta := some { subreddits := ["artificial"], sort := "hot", count := 0 } } ∧
    (GET reqArtificial (Except.ok "tkn") failFetch).status ≠ 500 := by
  constructor
  · decide
  · decide

/-- C1 (amended): when every target category's fetch fails (and token
acquisition succeeded), the handler returns a success (HTTP 200) response
with an empty posts list and `errors` holding one message per failed
source — there is no 500-equivalent total-failure path (500 is reserved
for token-acquisition failure). -/
theorem totalFailure_amended (req : AggregateRequest) (token : String) (fetch : FetchFun)
    (hne : targetSubreddits req ≠ [])
    (hfail : ∀ t ∈ targetSubreddits req,
      ∃ e, fetch t (safeSort req) (perSubredditLimit req) token = Except.error e) :
    GET req (Except.ok token) fetch =
      { status := 200, posts := [], error := none,
        errors := some (fetchErrors (fetchResults req token fetch)),
        meta := some { subreddits := targetSubreddits req, sort := safeSort req,
                       count := 0 } } ∧
    (fetchErrors (fetchResults req token fetch)).length = (targetSubreddits req).length := by
  have hval : ¬(subredditParamVal req ≠ "all" ∧ (targetSubreddits req).length = 0) := by
    rintro ⟨-, hlen⟩
    exact hne (List.length_eq_zero.mp hlen)
  have hallerr : ∀ r ∈ fetchResults req token fetch, ∃ e, r = Except.error e := by
    intro r hr
    rw [fetchResults_eq] at hr
    obtain ⟨t, ht, hrt⟩ := List.mem_map.mp hr
    obtain ⟨e, he⟩ := hfail t ht
    exact ⟨e, by rw [← hrt, he]⟩
  have hmerged : mergedPosts (fetchResults req token fetch) = [] :=
    mergedPosts_of_all_error _ hallerr
  have hlen : (fetchErrors (fetchResults req token fetch)).length =
      (targetSubreddits req).length := by
    rw [fetchErrors_length_of_all_error _ hallerr, fetchResults_eq, List.length_map]
  refine ⟨?_, hlen⟩
  rw [GET_ok_unfold req token fetch hval, hmerged]
  have herrpos : (fetchErrors (fetchResults req token fetch)).length > 0 := by
    rw [hlen]
    exact List.length_pos.mpr hne
  simp only [dedupeById, dedupeGo, sortPosts_nil, jsSlice_nil, List.length_nil,
    if_pos herrpos]

/-- C1 amended witness at a concrete all-failing request. -/
theorem totalFailure_amended_witness :
    GET reqArtificial (Except.ok "tkn") failFetch =
      { status := 200, posts := [], error := none,
        errors := some (fetchErrors (fetchResults reqArtificial "tkn" failFetch)),
        meta := some { subreddits := targetSubreddits reqArtificial,
                       sort := safeSort reqArtificial, count := 0 } } ∧
    (fetchErrors (fetchResults reqArtificial "tkn" failFetch)).length =
      (targetSubreddits reqArtificial).length :=
  totalFailure_amended reqArtificial "tkn" failFetch (by decide)
    (fun _ _ => ⟨"boom", rfl⟩)

end NewsAgg

namespace NewsAgg

/-! ### Claim C2 -/

theorem except_toOption_ok {e : Except String (List RedditPost)} {ps : List RedditPost}
    (h : e.toOption = some ps) : e = Except.ok ps := by
  cases e with
  | ok v => simpa [Except.toOption] using h
  | error msg => simp [Except.toOption] at h

/-- C2: as long as the request validates and the token was obtained, the
response is a 200 success whatever individual fetches did; `errors` holds
exactly the failed categories' messages (in target order, one per failed
category); `posts` is computed from exactly the successful categories'
items (dedup, sort, truncation applied to their concatenation), and every
returned post comes from some successful category — no failure blocks
another source's results. -/
theorem partialFailure_tolerance (req : AggregateRequest) (token : String)
    (fetch : FetchFun)
    (hne : targetSubreddits req ≠ [])
    (_hsome : ∃ t ∈ targetSubreddits req,
      ∃ ps, fetch t (safeSort req) (perSubredditLimit req) token = Except.ok ps) :
    (GET req (Except.ok token) fetch).status = 200 ∧
    (GET req (Except.ok token) fetch).errors.getD [] =
      (targetSubreddits req).filterMap
        (fun t => errOf (fetch t (safeSort req) (perSubredditLimit req) token)) ∧
    ((GET req (Except.ok token) fetch).errors.getD []).length =
      ((targetSubreddits req).filter
        (fun t => (errOf (fetch t (safeSort req) (perSubredditLimit req) token)).isSome)).length ∧
    (GET req (Except.ok token) fetch).posts =
      jsSlice (sortPosts (safeSort req) (dedupeById
        (((targetSubreddits req).filterMap
          (fun t => (fetch t (safeSort req) (perSubredditLimit req) token).toOption)).flatten)))
        (effLimit req) ∧
    ∀ p ∈ (GET req (Except.ok token) fetch).posts,
      ∃ t ∈ targetSubreddits req, ∃ ps,
        fetch t (safeSort req) (perSubredditLimit req) token = Except.ok ps ∧ p ∈ ps := by
  have hval : ¬(subredditParamVal req ≠ "all" ∧ (targetSubreddits req).length = 0) := by
    rintro ⟨-, hlen⟩
    exact hne (List.length_eq_zero.mp hlen)
  rw [GET_ok_unfold req token fetch hval]
  have herrs : fetchErrors (fetchResults req token fetch) =
      (targetSubreddits req).filterMap
        (fun t => errOf (fetch t (safeSort req) (perSubredditLimit req) token)) := by
    rw [fetchResults_eq, fetchErrors_map]
  have hgetd : (if (fetchErrors (fetchResults req token fetch)).length > 0
      then some (fetchErrors (fetchResults req token fetch)) else none).getD [] =
      fetchErrors (fetchResults req token fetch) := by
    split
    · rfl
    · next hlen =>
      have hnil : fetchErrors (fetchResults req token fetch) = [] :=
        List.length_eq_zero.mp (by omega)
      rw [hnil]
      rfl
  have hmerged : mergedPosts (fetchResults req token fetch) =
      ((targetSubreddits req).filterMap
        (fun t => (fetch t (safeSort req) (perSubredditLimit req) token).toOption)).flatten := by
    rw [fetchResults_eq, mergedPosts_map]
  refine ⟨rfl, ?_, ?_, ?_, ?_⟩
  · show (if (fetchErrors (fetchResults req token fetch)).length > 0
        then some (fetchErrors (fetchResults req token fetch)) else none).getD [] = _
    rw [hgetd, herrs]
  · show ((if (fetchErrors (fetchResults req token fetch)).length > 0
        then some (fetchErrors (fetchResults req token fetch)) else none).getD []).length = _
    rw [hgetd, herrs, length_filterMap_eq_length_filter]
  · show jsSlice (sortPosts (safeSort req)
        (dedupeById (mergedPosts (fetchResults req token fetch)))) (effLimit req) = _
    rw [hmerged]
  · intro p hp
    have h1 : p ∈ sortPosts (safeSort req)
        (dedupeById (mergedPosts (fetchResults req token fetch))) :=
      mem_of_mem_jsSlice hp
    have h2 : p ∈ dedupeById (mergedPosts (fetchResults req token fetch)) :=
      ((sortPosts_perm (safeSort req) _).mem_iff).mp h1
    have h3 : p ∈ mergedPosts (fetchResults req token fetch) := dedupeById_subset h2
    rw [hmerged] at h3
    obtain ⟨ps, hpsmem, hpps⟩ := List.mem_flatten.mp h3
    obtain ⟨t, ht, htps⟩ := List.mem_filterMap.mp hpsmem
    exact ⟨t, ht, ps, except_toOption_ok htps, hpps⟩

/-- A 3-source request of which one source fails. -/
def reqThree : AggregateRequest :=
  { subredditParam := some "artificial,ChatGPT,LocalLLaMA", sortParam := none,
    limitParam := none }

def postA1 : RedditPost :=
  { id := "a", title := "ta", url := "https://example.com/a", permalink := "/r/a",
    subreddit := "artificial", score := 1, numComments := 0, author := "u1",
    thumbnail := none, selftext := "", createdAt := 10, flair := none,
    isImage := false, preview := none }

def postB5 : RedditPost :=
  { id := "b", title := "tb", url := "https://example.com/b", permalink := "/r/b",
    subreddit := "LocalLLaMA", score := 5, numComments := 0, author := "u2",
    thumbnail := none, selftext := "", createdAt := 3, flair := none,
    isImage := false, preview := none }

def mixedFetch : FetchFun := fun sub _ _ _ =>
  if sub = "ChatGPT" then Except.error "down"
  else if sub = "artificial" then Except.ok [postA1]
  else Except.ok [postB5]

/-- C2 witness: 3 sources, 1 failing — 200 status, both successes' posts,
exactly 1 error entry. -/
theorem partialFailure_tolerance_witness :
    ((GET reqThree (Except.ok "tkn") mixedFetch).status = 200 ∧
     (GET reqThree (Except.ok "tkn") mixedFetch).errors.getD [] =
       (targetSubreddits reqThree).filterMap
         (fun t => errOf (mixedFetch t (safeSort reqThree) (perSubredditLimit reqThree) "tkn")) ∧
     ((GET reqThree (Except.ok "tkn") mixedFetch).errors.getD []).length =
       ((targetSubreddits reqThree).filter
         (fun t => (errOf (mixedFetch t (safeSort reqThree) (perSubredditLimit reqThree) "tkn")).isSome)).length ∧
     (GET reqThree (Except.ok "tkn") mixedFetch).posts =
       jsSlice (sortPosts (safeSort reqThree) (dedupeById
         (((targetSubreddits reqThree).filterMap
           (fun t => (mixedFetch t (safeSort reqThree) (perSubredditLimit reqThree) "tkn").toOption)).flatten)))
         (effLimit reqThree) ∧
     ∀ p ∈ (GET reqThree (Except.ok "tkn") mixedFetch).posts,
       ∃ t ∈ targetSubreddits reqThree, ∃ ps,
         mixedFetch t (safeSort reqThree) (perSubredditLimit reqThree) "tkn" = Except.ok ps ∧
         p ∈ ps) ∧
    (GET reqThree (Except.ok "tkn") mixedFetch).errors = some ["down"] ∧
    (GET reqThree (Except.ok "tkn") mixedFetch).posts = [postB5, postA1] :=
  ⟨partialFailure_tolerance reqThree "tkn" mixedFetch (by decide)
      ⟨"artificial", by decide, [postA1], rfl⟩,
    by decide, by decide⟩

end NewsAgg

namespace NewsAgg

/-! ### Claim C3 -/

/-- An `'all'` request with limit 1; one category returns a duplicated id. -/
def reqLimit1 : AggregateRequest :=
  { subredditParam := none, sortParam := none, limitParam := some 1 }

def postA2 : RedditPost :=
  { id := "a", title := "ta2", url := "https://example.com/a2", permalink := "/r/a2",
    subreddit := "artificial", score := 1, numComments := 0, author := "u3",
    thumbnail := none, selftext := "", createdAt := 5, flair := none,
    isImage := false, preview := none }

def dupFetch : FetchFun := fun sub _ _ _ =>
  if sub = "artificial" then Except.ok [postA1, postA2, postB5] else Except.ok []

/-- C3 counterexample: the merged results carry the id `"a"` twice, yet the
returned posts list contains zero items with that id — truncation to
`limit = 1` removed the deduplicated occurrence, contradicting "the
returned posts list contains exactly one item with that identifier". -/
theorem dedup_counterexample :
    2 ≤ (mergedPosts (fetchResults reqLimit1 "tkn" dupFetch)).countP (fun p => p.id == "a") ∧
    (GET reqLimit1 (Except.ok "tkn") dupFetch).posts = [postB5] ∧
    (GET reqLimit1 (Except.ok "tkn") dupFetch).posts.countP (fun p => p.id == "a") = 0 := by
  refine ⟨?_, ?_, ?_⟩
  · decide
  · decide
  · decide

/-- C3 (amended): deduplication acts on the merged list before truncation:
the deduplicated list keeps exactly one item per occurring identifier,
namely the first occurrence in merge order (and every first occurrence is
kept); the returned posts list — a truncation of a sorted permutation of
the deduplicated list — therefore contains at most one item with any
identifier (possibly zero, when the limit cuts it off). -/
theorem dedup_amended :
    (∀ (l : List RedditPost) (x : String),
      1 ≤ l.countP (fun p => p.id == x) →
      (dedupeById l).countP (fun p => p.id == x) = 1) ∧
    (∀ (l : List RedditPost) (p : RedditPost), p ∈ dedupeById l ↔ FirstOcc l p) ∧
    (∀ (req : AggregateRequest) (tok : Except String String) (fetch : FetchFun)
        (x : String),
      (GET req tok fetch).posts.countP (fun p => p.id == x) ≤ 1) := by
  refine ⟨fun l x h => countP_dedupeById_eq_one x l h, mem_dedupeById_iff, ?_⟩
  intro req tok fetch x
  rcases GET_posts_shape req tok fetch with hnil | ⟨token, -, hposts⟩
  · rw [hnil]
    simp
  · rw [hposts]
    calc (jsSlice (sortPosts (safeSort req)
          (dedupeById (mergedPosts (fetchResults req token fetch)))) (effLimit req)).countP
            (fun p => p.id == x)
        ≤ (sortPosts (safeSort req)
            (dedupeById (mergedPosts (fetchResults req token fetch)))).countP
              (fun p => p.id == x) :=
          (jsSlice_sublist _ _).countP_le _
      _ = (dedupeById (mergedPosts (fetchResults req token fetch))).countP
            (fun p => p.id == x) :=
          (sortPosts_perm _ _).countP_eq _
      _ ≤ 1 := countP_dedupeById_le_one x _

/-- C3 amended witness: in the concrete duplicated-id merge, the
deduplicated list keeps exactly one `"a"` item, and the concrete returned
posts list has at most one. -/
theorem dedup_amended_witness :
    (dedupeById [postA1, postA2, postB5]).countP (fun p => p.id == "a") = 1 ∧
    (GET reqLimit1 (Except.ok "tkn") dupFetch).posts.countP (fun p => p.id == "a") ≤ 1 :=
  ⟨dedup_amended.1 [postA1, postA2, postB5] "a" (by decide),
   dedup_amended.2.2 reqLimit1 (Except.ok "tkn") dupFetch "a"⟩

end NewsAgg

namespace NewsAgg

/-! ### Claim C4 -/

/-- C4: the effective sort is the one reported in `meta.sort`; for `new`
the returned posts are non-increasing in `createdAt`
(`newLe a b` is `b.createdAt ≤ a.createdAt`), for every other effective
sort (`hot` and `top`) they are non-increasing in `score` — both branches
use the single score comparator. -/
theorem sort_correctness (req : AggregateRequest) (tok : Except String String)
    (fetch : FetchFun) (m : Meta)
    (hm : (GET req tok fetch).meta = some m) :
    m.sort = safeSort req ∧
    (m.sort = "new" → (GET req tok fetch).posts.Pairwise newLe) ∧
    (m.sort ≠ "new" → (GET req tok fetch).posts.Pairwise scoreLe) := by
  obtain ⟨token, htok, hval, hmeq⟩ := GET_meta_inv req tok fetch m hm
  subst htok
  have hsort : m.sort = safeSort req := by rw [hmeq]
  have hposts : (GET req (Except.ok token) fetch).posts =
      jsSlice (sortPosts (safeSort req)
        (dedupeById (mergedPosts (fetchResults req token fetch)))) (effLimit req) := by
    rw [GET_ok_unfold req token fetch hval]
  refine ⟨hsort, ?_, ?_⟩
  · intro hnew
    rw [hposts]
    refine List.Pairwise.sublist (jsSlice_sublist _ _) ?_
    rw [hsort.symm.trans hnew]
    exact sortPosts_pairwise_new _
  · intro hnotnew
    rw [hposts]
    refine List.Pairwise.sublist (jsSlice_sublist _ _) ?_
    exact sortPosts_pairwise_score _ (by rw [← hsort]; exact hnotnew) _

/-- A `sort=new` request over the full category set. -/
def reqNew : AggregateRequest :=
  { subredditParam := none, sortParam := some "new", limitParam := none }

def twoFetch : FetchFun := fun sub _ _ _ =>
  if sub = "artificial" then Except.ok [postA1]
  else if sub = "ChatGPT" then Except.ok [postB5]
  else Except.ok []

/-- C4 witness at a concrete `sort=new` request with two posts. -/
theorem sort_correctness_witness :
    (Meta.mk SUBREDDITS "new" 2).sort = safeSort reqNew ∧
    ((Meta.mk SUBREDDITS "new" 2).sort = "new" →
      (GET reqNew (Except.ok "tkn") twoFetch).posts.Pairwise newLe) ∧
    ((Meta.mk SUBREDDITS "new" 2).sort ≠ "new" →
      (GET reqNew (Except.ok "tkn") twoFetch).posts.Pairwise scoreLe) :=
  sort_correctness reqNew (Except.ok "tkn") twoFetch (Meta.mk SUBREDDITS "new" 2)
    (by decide)

/-! ### Claim C5 -/

/-- A request whose `limit` parameter parsed to `-1`. -/
def reqNegLimit : AggregateRequest :=
  { subredditParam := none, sortParam := none, limitParam := some (-1) }

def singleFetch : FetchFun := fun _ _ _ _ => Except.ok [postA1]

/-- C5 counterexample: with `limit=-1` the effective limit is `-1`
(`Math.min(-1, 100)`), JS `slice(0, -1)` drops from the end, the response
still reports `meta.count = 1`, and `posts.length ≤ limit` is false
(`0 ≤ -1` fails), contradicting "the returned posts list has length at
most the effective limit". -/
theorem truncation_counterexample :
    GET reqNegLimit (Except.ok "tkn") singleFetch =
      { status := 200, posts := [], error := none, errors := none,
        meta := some { subreddits := SUBREDDITS, sort := "hot", count := 1 } } ∧
    ¬(((GET reqNegLimit (Except.ok "tkn") singleFetch).posts.length : Int) ≤
        effLimit reqNegLimit) := by
  constructor
  · decide
  · decide

/-- C5 (amended): whenever the effective limit (the parsed `limit`
parameter, defaulting to 50 and capped at 100) is nonnegative, the
returned posts list has length at most that limit; `meta.count` always
equals the size of the deduplicated merged list before truncation, and
the posts list never exceeds `meta.count` (so `meta.count` may exceed the
number of posts returned).  For a negative parsed limit the JS
`slice(0, limit)` instead drops elements from the end and the length
bound fails. -/
theorem truncation_amended (req : AggregateRequest) (token : String) (fetch : FetchFun) :
    (∀ tok : Except String String, 0 ≤ effLimit req →
      ((GET req tok fetch).posts.length : Int) ≤ effLimit req) ∧
    effLimit req ≤ 100 ∧
    (req.limitParam = none → effLimit req = 50) ∧
    (∀ m : Meta, (GET req (Except.ok token) fetch).meta = some m →
      m.count = (dedupeById (mergedPosts (fetchResults req token fetch))).length ∧
      (GET req (Except.ok token) fetch).posts.length ≤ m.count) := by
  refine ⟨?_, ?_, ?_, ?_⟩
  · intro tok he
    rcases GET_posts_shape req tok fetch with hnil | ⟨token', -, hposts⟩
    · rw [hnil]
      simpa using he
    · rw [hposts]
      exact jsSlice_length_le_of_nonneg _ _ he
  · exact min_le_right _ _
  · intro h
    rw [effLimit, h]
    rfl
  · intro m hm
    obtain ⟨token', htok, hval, hmeq⟩ := GET_meta_inv req (Except.ok token) fetch m hm
    have htk : token' = token := by
      injection htok with h
      exact h.symm
    rw [htk] at hmeq
    constructor
    · rw [hmeq]
      exact sortPosts_length _ _
    · rw [GET_ok_unfold req token fetch hval, hmeq]
      exact jsSlice_length_le _ _

/-- A plain request with `limit=3`. -/
def req3 : AggregateRequest :=
  { subredditParam := none, sortParam := none, limitParam := some 3 }

/-- C5 amended witness at `limit=3`: the bound holds and `meta.count`
matches the deduplicated pre-truncation size. -/
theorem truncation_amended_witness :
    (((GET req3 (Except.ok "tkn") singleFetch).posts.length : Int) ≤ effLimit req3) ∧
    ((Meta.mk SUBREDDITS "hot" 1).count =
        (dedupeById (mergedPosts (fetchResults req3 "tkn" singleFetch))).length ∧
      (GET req3 (Except.ok "tkn") singleFetch).posts.length ≤
        (Meta.mk SUBREDDITS "hot" 1).count) :=
  ⟨(truncation_amended req3 "tkn" singleFetch).1 (Except.ok "tkn") (by decide),
   (truncation_amended req3 "tkn" singleFetch).2.2.2 (Meta.mk SUBREDDITS "hot" 1)
     (by decide)⟩

end NewsAgg

namespace NewsAgg

/-! ### Claim C6 -/

/-- C6: category-filter resolution.  `'all'` (also an absent or empty
parameter) expands to the full fixed `SUBREDDITS` set; an explicit value
is split on commas, trimmed, and filtered to recognized subreddits (so
every resolved target is a configured category); `meta.subreddits` equals
exactly the resolved target set whenever `meta` is present; and an
explicit filter resolving to the empty set yields the 400 response
`{ error, posts: [] }` independently of the token and fetch oracles — no
fetch is attempted. -/
theorem categoryFilter_resolution (req : AggregateRequest)
    (tok : Except String String) (fetch : FetchFun) :
    (subredditParamVal req = "all" → targetSubreddits req = SUBREDDITS) ∧
    (subredditParamVal req ≠ "all" →
      targetSubreddits req =
        ((jsSplitComma (subredditParamVal req)).map jsTrim).filter
          (fun s => decide (s ∈ SUBREDDITS)) ∧
      ∀ t ∈ targetSubreddits req, t ∈ SUBREDDITS) ∧
    (∀ m : Meta, (GET req tok fetch).meta = some m →
      m.subreddits = targetSubreddits req) ∧
    (subredditParamVal req ≠ "all" → targetSubreddits req = [] →
      GET req tok fetch =
        { status := 400, posts := [], error := some "Invalid subreddit(s) specified",
          errors := none, meta := none } ∧
      ∀ (tok' : Except String String) (fetch' : FetchFun),
        GET req tok' fetch' = GET req tok fetch) := by
  refine ⟨?_, ?_, ?_, ?_⟩
  · intro h
    rw [targetSubreddits, resolveTargets, h, if_pos rfl]
  · intro h
    constructor
    · rw [targetSubreddits, resolveTargets, if_neg h]
    · intro t ht
      rw [targetSubreddits, resolveTargets, if_neg h] at ht
      have := List.of_mem_filter ht
      simpa using this
  · intro m hm
    obtain ⟨token, -, -, hmeq⟩ := GET_meta_inv req tok fetch m hm
    rw [hmeq]
  · intro h hempty
    have hval : subredditParamVal req ≠ "all" ∧ (targetSubreddits req).length = 0 :=
      ⟨h, by rw [hempty]; rfl⟩
    have h400 : ∀ (tok' : Except String String) (fetch' : FetchFun),
        GET req tok' fetch' =
          { status := 400, posts := [], error := some "Invalid subreddit(s) specified",
            errors := none, meta := none } := by
      intro tok' fetch'
      unfold GET
      rw [if_pos hval]
    exact ⟨h400 tok fetch, fun tok' fetch' => (h400 tok' fetch').trans (h400 tok fetch).symm⟩

/-- An unrecognized explicit category filter. -/
def reqBogus : AggregateRequest :=
  { subredditParam := some "bogus", sortParam := none, limitParam := none }

/-- C6 witness: `subreddit=bogus` resolves to the empty target set and the
handler answers 400 with `{ error, posts: [] }`. -/
theorem categoryFilter_resolution_witness :
    GET reqBogus (Except.ok "tkn") failFetch =
      { status := 400, posts := [], error := some "Invalid subreddit(s) specified",
        errors := none, meta := none } :=
  ((categoryFilter_resolution reqBogus (Except.ok "tkn") failFetch).2.2.2
    (by decide) (by decide)).1

/-! ### Claim C7 -/

/-- C7: with the `'all'` filter the per-category fetch limit is the
ceiling of the total limit divided by the number of target categories
(5 configured categories; the two inequalities certify `jsCeilDiv` as the
exact ceiling); with an explicit filter the total limit is used directly
as the per-category limit (in particular for a single explicit
category). -/
theorem perCategoryLimit_division (req : AggregateRequest) :
    (subredditParamVal req = "all" →
      (targetSubreddits req).length = 5 ∧
      perSubredditLimit req = jsCeilDiv (effLimit req) 5 ∧
      effLimit req ≤ 5 * perSubredditLimit req ∧
      5 * (perSubredditLimit req - 1) < effLimit req) ∧
    (subredditParamVal req ≠ "all" → perSubredditLimit req = effLimit req) := by
  constructor
  · intro h
    have hlen : (targetSubreddits req).length = 5 := by
      rw [targetSubreddits, resolveTargets, h, if_pos rfl]
      rfl
    have hper : perSubredditLimit req = jsCeilDiv (effLimit req) 5 := by
      rw [perSubredditLimit, if_pos h, hlen]
      norm_num
    refine ⟨hlen, hper, ?_, ?_⟩
    · rw [hper]
      exact jsCeilDiv_le (effLimit req) 5 (by norm_num)
    · rw [hper]
      exact jsCeilDiv_lt (effLimit req) 5 (by norm_num)
  · intro h
    rw [perSubredditLimit, if_neg h]

/-- A `subreddit=all&limit=10` request: per-category limit `ceil(10/5)=2`. -/
def req10 : AggregateRequest :=
  { subredditParam := none, sortParam := none, limitParam := some 10 }

/-- C7 witness: `limit=10` over the 5 configured categories gives
per-category limit 2. -/
theorem perCategoryLimit_division_witness :
    ((targetSubreddits req10).length = 5 ∧
      perSubredditLimit req10 = jsCeilDiv (effLimit req10) 5 ∧
      effLimit req10 ≤ 5 * perSubredditLimit req10 ∧
      5 * (perSubredditLimit req10 - 1) < effLimit req10) ∧
    perSubredditLimit req10 = 2 :=
  ⟨(perCategoryLimit_division req10).1 (by decide), by decide⟩

end NewsAgg

namespace NewsAgg

/-! ### Claim C8 -/

/-- Formalization of the spec's wording "an absolute HTTP(S) URL": a
string carrying an explicit `http://` or `https://` scheme.  This is the
spec-side reference definition, to be compared against the source's
`startsWith('http')` check. -/
def specAbsoluteHttpUrl (s : String) : Bool :=
  jsStartsWith s "http://" || jsStartsWith s "https://"

/-- Whether the `[removed]` marker occurs somewhere in the string. -/
def containsRemovedMarker (s : String) : Bool :=
  (suffixesOf s.data).any (fun suf => ("[removed]".data).isPrefixOf suf)

/-- A raw record whose thumbnail passes the prefix check without being an
absolute URL and whose body text carries the removal marker. -/
def cexRaw : RawPostData :=
  { id := "x1", title := "t", url := "https://example.com/page",
    permalink := "/r/x", subreddit := "artificial", score := 0, num_comments := 0,
    author := "a", thumbnail := "httpmirror", selftext := "[removed] body text",
    created_utc := 0, link_flair_text := none, is_reddit_media_domain := false,
    post_hint := none, preview := none }

/-- C8 counterexample: raw thumbnail `"httpmirror"` is not an absolute
HTTP(S) URL, yet the OAuth variant's `normalizePost` keeps it (the code
tests only `startsWith('http')`); and this variant leaves the `[removed]`
marker in the truncated body text (only the PullPush variant strips it).
Both refute the claim as stated. -/
theorem normalizePost_counterexample :
    (normalizePost cexRaw).thumbnail = some "httpmirror" ∧
    specAbsoluteHttpUrl "httpmirror" = false ∧
    containsRemovedMarker (normalizePost cexRaw).selftext = true := by
  refine ⟨?_, ?_, ?_⟩
  · decide
  · decide
  · decide

/-- C8 (amended): for both `normalizePost` variants — the thumbnail is
null unless the raw thumbnail starts with `"http"` and is none of the
sentinel placeholder values (in particular `"self"` yields null; the code
checks the `http` prefix, not full absolute-URL validity); every
occurrence of `&amp;` in the raw preview URL is replaced by `&`; the body
text is truncated to at most 200 characters, with the `[removed]` marker
stripped (before trimming and truncation) in the PullPush variant only;
and `isImage` holds exactly when the type hint says image, the source
marks native media, or the URL matches the image-extension test. -/
theorem normalizePost_amended :
    (∀ d : RawPostData, (normalizePost d).thumbnail ≠ none →
      jsStartsWith d.thumbnail "http" = true ∧ d.thumbnail ∉ invalidThumbnails) ∧
    (∀ d : RawPostData, d.thumbnail = "self" → (normalizePost d).thumbnail = none) ∧
    (∀ (d : RawPostData) (u : String), d.preview = some u →
      (normalizePost d).preview = some (jsReplaceAmp u)) ∧
    (∀ d : RawPostData, (normalizePost d).selftext.length ≤ 200) ∧
    (∀ d : RawPostData, (normalizePost d).isImage =
      ((d.post_hint == some "image") || d.is_reddit_media_domain || imageUrlTest d.url)) ∧
    (∀ r : RawSubmission, (normalizePostPP r).thumbnail ≠ none →
      jsStartsWith (r.thumbnail.getD "") "http" = true ∧
      r.thumbnail.getD "" ∉ invalidThumbnails) ∧
    (∀ r : RawSubmission, r.thumbnail = some "self" →
      (normalizePostPP r).thumbnail = none) ∧
    (∀ (r : RawSubmission) (u : String), r.preview = some u →
      (normalizePostPP r).preview = some (jsReplaceAmp u)) ∧
    (∀ r : RawSubmission, (normalizePostPP r).selftext.length ≤ 200) ∧
    (∀ (r : RawSubmission) (s : String), r.selftext = some s → s ≠ "" →
      (normalizePostPP r).selftext = jsTake (jsTrim (jsReplaceRemoved s)) 200) ∧
    (∀ r : RawSubmission, (normalizePostPP r).isImage =
      ((r.post_hint == some "image") || r.is_reddit_media_domain.getD false ||
        imageUrlTest r.url)) := by
  refine ⟨?_, ?_, ?_, ?_, ?_, ?_, ?_, ?_, ?_, ?_, ?_⟩
  · intro d h
    by_cases hc : d.thumbnail ≠ "" ∧ d.thumbnail ∉ invalidThumbnails ∧
        jsStartsWith d.thumbnail "http"
    · exact ⟨hc.2.2, hc.2.1⟩
    · exfalso
      apply h
      show (if d.thumbnail ≠ "" ∧ d.thumbnail ∉ invalidThumbnails ∧
          jsStartsWith d.thumbnail "http" then some d.thumbnail else none) = none
      exact if_neg hc
  · intro d h
    show (if d.thumbnail ≠ "" ∧ d.thumbnail ∉ invalidThumbnails ∧
        jsStartsWith d.thumbnail "http" then some d.thumbnail else none) = none
    rw [h]
    exact if_neg (by decide)
  · intro d u h
    show d.preview.map jsReplaceAmp = some (jsReplaceAmp u)
    rw [h]
    rfl
  · intro d
    show (if d.selftext ≠ "" then jsTake d.selftext 200 else "").length ≤ 200
    split
    · exact List.length_take_le 200 d.selftext.data
    · exact Nat.zero_le 200
  · intro d
    rfl
  · intro r h
    by_cases hc : r.thumbnail.getD "" ≠ "" ∧ r.thumbnail.getD "" ∉ invalidThumbnails ∧
        jsStartsWith (r.thumbnail.getD "") "http"
    · exact ⟨hc.2.2, hc.2.1⟩
    · exfalso
      apply h
      show (if r.thumbnail.getD "" ≠ "" ∧ r.thumbnail.getD "" ∉ invalidThumbnails ∧
          jsStartsWith (r.thumbnail.getD "") "http"
          then some (r.thumbnail.getD "") else none) = none
      exact if_neg hc
  · intro r h
    show (if r.thumbnail.getD "" ≠ "" ∧ r.thumbnail.getD "" ∉ invalidThumbnails ∧
        jsStartsWith (r.thumbnail.getD "") "http"
        then some (r.thumbnail.getD "") else none) = none
    rw [h]
    exact if_neg (by decide)
  · intro r u h
    show r.preview.map jsReplaceAmp = some (jsReplaceAmp u)
    rw [h]
    rfl
  · intro r
    show (match r.selftext with
      | none => ""
      | some s => if s = "" then "" else jsTake (jsTrim (jsReplaceRemoved s)) 200).length ≤ 200
    cases r.selftext with
    | none => exact Nat.zero_le 200
    | some s =>
      by_cases hs : s = ""
      · simp [hs]
      · simp only [if_neg hs]
        exact List.length_take_le 200 (jsTrim (jsReplaceRemoved s)).data
  · intro r s h hs
    show (match r.selftext with
      | none => ""
      | some s' => if s' = "" then "" else jsTake (jsTrim (jsReplaceRemoved s')) 200) =
        jsTake (jsTrim (jsReplaceRemoved s)) 200
    rw [h]
    exact if_neg hs
  · intro r
    rfl

/-- A raw record with a sentinel thumbnail and an escaped preview URL. -/
def wRaw : RawPostData :=
  { id := "x2", title := "t", url := "https://example.com/q",
    permalink := "/r/y", subreddit := "ChatGPT", score := 0, num_comments := 0,
    author := "a", thumbnail := "self", selftext := "", created_utc := 0,
    link_flair_text := none, is_reddit_media_domain := false, post_hint := none,
    preview := some "&amp;token=x" }

/-- C8 amended witness: thumbnail `"self"` normalizes to null and the
preview `&amp;token=x` normalizes to `&token=x`. -/
theorem normalizePost_amended_witness :
    (normalizePost wRaw).preview = some "&token=x" ∧
    (normalizePost wRaw).thumbnail = none := by
  refine ⟨?_, normalizePost_amended.2.1 wRaw rfl⟩
  have h := normalizePost_amended.2.2.1 wRaw "&amp;token=x" rfl
  rw [h]
  decide

end NewsAgg

namespace Proxy

/-! ### Claim C9 -/

/-- C9: when the upstream listing fetch returns a non-success status (and
a token had been served, possibly from cache), the proxy fails with the
upstream's status, an error message naming that status, and the upstream
body truncated to 200 characters as diagnostic detail; on a 401 the token
cache entry is cleared — so the next `getAccessToken` with an empty cache
performs the client-credentials exchange and stores a fresh token — while
any other failing status leaves the cache exactly as the token step left
it. -/
theorem upstreamFailure_and_tokenInvalidation
    (cache cacheA : Option TokenCache) (req : ProxyRequest) (sub : String)
    (now : Int) (creds : Option (String × String)) (tokenUp : TokenUpstream)
    (dataStatus : Nat) (dataBody : String) (tok : String)
    (hsub : req.subreddit = some sub)
    (htok : getAccessToken cache now creds tokenUp = (cacheA, Except.ok tok))
    (hbad : ¬(200 ≤ dataStatus ∧ dataStatus ≤ 299)) :
    (proxyGET cache req now creds tokenUp dataStatus dataBody).2 =
      { status := dataStatus
        error := some ("Reddit returned " ++ toString dataStatus ++ " for r/" ++ sub)
        detail := some (NewsAgg.jsTake dataBody 200)
        body := none } ∧
    (dataStatus = 401 →
      (proxyGET cache req now creds tokenUp dataStatus dataBody).1 = none) ∧
    (dataStatus ≠ 401 →
      (proxyGET cache req now creds tokenUp dataStatus dataBody).1 = cacheA) ∧
    (∀ (now' : Int) (cid cs token' : String) (e : Int),
      getAccessToken none now' (some (cid, cs)) (TokenUpstream.ok token' e) =
        (some { token := token', expiresAt := now' + e * 1000 }, Except.ok token')) := by
  have hget : proxyGET cache req now creds tokenUp dataStatus dataBody =
      ((if dataStatus = 401 then none else cacheA),
       { status := dataStatus
         error := some ("Reddit returned " ++ toString dataStatus ++ " for r/" ++ sub)
         detail := some (NewsAgg.jsTake dataBody 200)
         body := none }) := by
    unfold proxyGET
    rw [hsub, htok]
    exact if_neg hbad
  refine ⟨by rw [hget], ?_, ?_, ?_⟩
  · intro h401
    rw [hget]
    exact if_pos h401
  · intro hne
    rw [hget]
    exact if_neg hne
  · intro now' cid cs token' e
    rfl

/-- A cached-token request hitting a 401 upstream response. -/
def cachedState : Option TokenCache := some { token := "cached", expiresAt := 10000000 }

def reqProxy : ProxyRequest :=
  { subreddit := some "artificial", sortParam := none, limitParam := none, t := none }

/-- C9 witness: upstream 401 with a cached token in use — the response
carries status 401 and the truncated body, and the cache is cleared. -/
theorem upstreamFailure_and_tokenInvalidation_witness :
    ((proxyGET cachedState reqProxy 0 none (TokenUpstream.err 500 "x") 401 "unauthorized").2 =
      { status := 401
        error := some ("Reddit returned " ++ toString 401 ++ " for r/" ++ "artificial")
        detail := some (NewsAgg.jsTake "unauthorized" 200)
        body := none } ∧
     (401 = 401 →
      (proxyGET cachedState reqProxy 0 none (TokenUpstream.err 500 "x") 401 "unauthorized").1 =
        none) ∧
     (401 ≠ 401 →
      (proxyGET cachedState reqProxy 0 none (TokenUpstream.err 500 "x") 401 "unauthorized").1 =
        cachedState) ∧
     (∀ (now' : Int) (cid cs token' : String) (e : Int),
      getAccessToken none now' (some (cid, cs)) (TokenUpstream.ok token' e) =
        (some { token := token', expiresAt := now' + e * 1000 }, Except.ok token'))) ∧
    (proxyGET cachedState reqProxy 0 none (TokenUpstream.err 500 "x") 401 "unauthorized").1 =
      none :=
  ⟨upstreamFailure_and_tokenInvalidation cachedState cachedState reqProxy "artificial"
      0 none (TokenUpstream.err 500 "x") 401 "unauthorized" "cached" rfl rfl
      (by decide),
   by decide⟩

end Proxy

namespace NewsAgg

/-! ### Claim C10 -/

/-- C10: the aggregate response is a deterministic function of the
per-category fetch outcomes.  Whatever order the fan-out tasks complete
in (`sched`, any permutation of the task indices), `allSettled` places
each settled value at its input index, so the handler run with an
explicit completion schedule equals the canonical input-order handler —
the merged sequence, the occurrence kept by dedup, and the sorted output
are identical across runs. -/
theorem settleOrder_determinism (req : AggregateRequest)
    (tok : Except String String) (fetch : FetchFun) (sched : List Nat)
    (hperm : sched.Perm (List.range (targetSubreddits req).length)) :
    GETsched req tok fetch sched = GET req tok fetch := by
  unfold GETsched GET
  split
  · rfl
  · cases tok with
    | error msg => rfl
    | ok token =>
      have hlen : (fetchResults req token fetch).length = (targetSubreddits req).length := by
        rw [fetchResults_eq]
        exact List.length_map _ _
      have h1 : runSchedule (fetchResults req token fetch) sched =
          (fetchResults req token fetch).map some :=
        runSchedule_of_perm _ _ (by rw [hlen]; exact hperm)
      simp only [h1, reduceOption_map_some]

/-- An out-of-order completion schedule for the 5 categories. -/
def schedW : List Nat := [4, 2, 0, 1, 3]

/-- C10 witness: a concrete out-of-order schedule reproduces the
input-order response exactly. -/
theorem settleOrder_determinism_witness :
    GETsched req3 (Except.ok "tkn") singleFetch schedW =
      GET req3 (Except.ok "tkn") singleFetch :=
  settleOrder_determinism req3 (Except.ok "tkn") singleFetch schedW (by decide)

end NewsAgg
